import Mathlib

/-!
Verification of the flatlander rendering front-end
(`src/lesson-24-x-text/render_gl/src/flatlander/mod.rs`).

The `mod.rs` file is the authority for the `Flatlander` struct, its
`toggle`, `toggle_wireframe`, `check_if_invalidated_and_reinitialize`
(named `check_if_invalidated_and_reinit` here) and `render` methods, and
the `Alphabet` / `FlatlandGroup` handle types.  The `flatland` and
`buffers` submodules referenced by `mod.rs` are not part of the sources;
their state and operations are modelled from the spec (sections 3, 4.1,
4.2 and 4.4) and each such definition is marked `Modelled from the spec`.

GPU calls are modelled as an explicit effect trace; stateful methods
return the new state paired with the list of effects they performed.
-/

/-- Modelled from the spec: the vertex record is an opaque fixed-size
structure defined by the geometry producer (`FlatlanderVertex` in the
missing `buffers` module); its contents are irrelevant here. -/
structure FlatlanderVertex where
  payload : Nat
deriving DecidableEq

/-- Modelled from the spec: an alphabet entry, identified by a
caller-supplied id, holding tessellated vertex and index data
(indices are 16-bit unsigned in the source; `Nat` here). -/
structure AlphabetEntry where
  id : Nat
  vertices : List FlatlanderVertex
  indices : List Nat
deriving DecidableEq

/-- Modelled from the spec: one alphabet slot of the registry -
a reference count and an ordered, append-only list of entries.
A slot with refcount 0 is free and eligible for reuse. -/
structure AlphabetData where
  refcount : Nat
  entries : List AlphabetEntry
deriving DecidableEq

/-- Opaque stand-in for `na::Projective3<f32>`: the transform payload is
never inspected by the code under verification. -/
structure Projective3 where
  payload : Nat
deriving DecidableEq

/-- Opaque stand-in for `na::Vector4<u8>` (a 4x8-bit color). -/
structure Vector4u8 where
  r : Nat
  g : Nat
  b : Nat
  a : Nat
deriving DecidableEq

/-- `FlatlandItem` from `mod.rs`: a placement of one alphabet entry. -/
structure FlatlandItem where
  alphabet_entry_index : Nat
  x_offset : Int
  y_offset : Int
deriving DecidableEq

/-- Modelled from the spec: one group slot - transform, color, the
alphabet slot it draws from, and its ordered item list. -/
structure GroupSlotData where
  transform : Projective3
  color : Vector4u8
  alphabet_slot : Nat
  items : List FlatlandItem
deriving DecidableEq

/-- Modelled from the spec: the shared `flatland::Flatland` registry
state - slot tables for alphabets and groups and the three dirty
channels (field names as used by `mod.rs`). -/
structure Flatland where
  alphabets : List AlphabetData
  groups : List (Option GroupSlotData)
  alphabets_invalidated : Bool
  groups_invalidated : Bool
  draw_invalidated : Bool
deriving DecidableEq

/-- In-place update of a list at one position; out-of-range is the
identity (used to express the registry's slot-indexed mutations). -/
def modifyAt (l : List α) (i : Nat) (f : α → α) : List α :=
  match l, i with
  | [], _ => []
  | x :: xs, 0 => f x :: xs
  | x :: xs, n + 1 => x :: modifyAt xs n f

/-- Modelled from the spec: slot allocation for the alphabet registry -
reuse the first slot with refcount 0, else append a fresh slot; the new
slot has refcount 1 and an empty entry list. -/
def allocSlot : List AlphabetData → List AlphabetData × Nat
  | [] => ([⟨1, []⟩], 0)
  | a :: rest =>
    if a.refcount = 0 then (⟨1, []⟩ :: rest, 0)
    else
      let p := allocSlot rest
      (a :: p.1, p.2 + 1)

/-- Modelled from the spec: slot allocation for the group registry -
reuse the first free (deleted) slot, else append. -/
def allocGroupSlot (g : GroupSlotData) : List (Option GroupSlotData) → List (Option GroupSlotData) × Nat
  | [] => ([some g], 0)
  | none :: rest => (some g :: rest, 0)
  | some x :: rest =>
    let p := allocGroupSlot g rest
    (some x :: p.1, p.2 + 1)

/-- `flatland::Flatland::new()`: empty registry, all channels clean. -/
def Flatland.new : Flatland :=
  { alphabets := [], groups := [], alphabets_invalidated := false,
    groups_invalidated := false, draw_invalidated := false }

/-- Modelled from the spec (section 4.1): `create_alphabet` allocates a
fresh or reused slot with refcount 1 and an empty entry list. -/
def Flatland.create_alphabet (fl : Flatland) : Flatland × Nat :=
  let p := allocSlot fl.alphabets
  ({ fl with alphabets := p.1 }, p.2)

/-- Modelled from the spec (section 4.1): `inc(slot)` increments the
slot's refcount. -/
def Flatland.inc_alphabet (fl : Flatland) (slot : Nat) : Flatland :=
  { fl with alphabets := modifyAt fl.alphabets slot (fun a => { a with refcount := a.refcount + 1 }) }

/-- Modelled from the spec (section 4.1): `dec(slot)` decrements the
slot's refcount; reaching 0 marks the slot free (refcount 0 is the free
marker; geometry reclamation is deferred). -/
def Flatland.dec_alphabet (fl : Flatland) (slot : Nat) : Flatland :=
  { fl with alphabets := modifyAt fl.alphabets slot (fun a => { a with refcount := a.refcount - 1 }) }

/-- Modelled from the spec (section 4.1): `add_entry` appends geometry
to the slot, returns the stable entry index, and marks the
alphabet-geometry channel dirty. -/
def Flatland.add_alphabet_entry (fl : Flatland) (slot : Nat) (id : Nat)
    (vertices : List FlatlanderVertex) (indices : List Nat) : Flatland × Nat :=
  let idx := match fl.alphabets[slot]? with
    | some a => a.entries.length
    | none => 0
  ({ fl with
      alphabets := modifyAt fl.alphabets slot
        (fun a => { a with entries := a.entries ++ [⟨id, vertices, indices⟩] }),
      alphabets_invalidated := true }, idx)

/-- Modelled from the spec (section 4.1): pure lookup of an entry id,
returning an explicit not-found result when absent. -/
def Flatland.get_alphabet_entry_index (fl : Flatland) (slot : Nat) (id : Nat) : Option Nat :=
  match fl.alphabets[slot]? with
  | some a => a.entries.findIdx? (fun e => e.id == id)
  | none => none

/-- Modelled from the spec (section 4.2): `create_group` allocates a
group slot, stores the fields and marks both the instance-data and
draw-command channels dirty. -/
def Flatland.create_flatland_group_with_items (fl : Flatland) (t : Projective3)
    (c : Vector4u8) (alphabet_slot : Nat) (items : List FlatlandItem) : Flatland × Nat :=
  let p := allocGroupSlot ⟨t, c, alphabet_slot, items⟩ fl.groups
  ({ fl with groups := p.1, groups_invalidated := true, draw_invalidated := true }, p.2)

/-- Modelled from the spec (section 4.2): item changes mark the
instance-data channel and additionally the draw-command channel. -/
def Flatland.update_items (fl : Flatland) (slot : Nat) (items : List FlatlandItem) : Flatland :=
  { fl with
      groups := modifyAt fl.groups slot (Option.map (fun gr => { gr with items := items })),
      groups_invalidated := true, draw_invalidated := true }

/-- Modelled from the spec (section 4.2): transform changes mark the
instance-data channel. -/
def Flatland.update_transform (fl : Flatland) (slot : Nat) (t : Projective3) : Flatland :=
  { fl with
      groups := modifyAt fl.groups slot (Option.map (fun gr => { gr with transform := t })),
      groups_invalidated := true }

/-- Modelled from the spec (section 4.2): color changes mark the
instance-data channel. -/
def Flatland.update_color (fl : Flatland) (slot : Nat) (c : Vector4u8) : Flatland :=
  { fl with
      groups := modifyAt fl.groups slot (Option.map (fun gr => { gr with color := c })),
      groups_invalidated := true }

/-- Modelled from the spec (section 4.2): `delete_group` frees the slot
and marks the draw-command channel dirty. -/
def Flatland.delete_flatland_group (fl : Flatland) (slot : Nat) : Flatland :=
  { fl with groups := fl.groups.set slot none, draw_invalidated := true }

/-- Modelled from the spec: the full current vertex contents of the
live alphabets, in slot and entry order. -/
def Flatland.alphabet_vertices (fl : Flatland) : List FlatlanderVertex :=
  ((fl.alphabets.filter (fun a => a.refcount != 0)).map
    (fun a => (a.entries.map (fun e => e.vertices)).flatten)).flatten

/-- Length of the current vertex contents. -/
def Flatland.alphabet_vertices_len (fl : Flatland) : Nat :=
  (Flatland.alphabet_vertices fl).length

/-- Modelled from the spec: the full current index contents of the live
alphabets, in slot and entry order. -/
def Flatland.alphabet_indices (fl : Flatland) : List Nat :=
  ((fl.alphabets.filter (fun a => a.refcount != 0)).map
    (fun a => (a.entries.map (fun e => e.indices)).flatten)).flatten

/-- Length of the current index contents. -/
def Flatland.alphabet_indices_len (fl : Flatland) : Nat :=
  (Flatland.alphabet_indices fl).length

/-- Modelled from the spec: the number of currently-live group slots. -/
def Flatland.groups_len (fl : Flatland) : Nat :=
  (fl.groups.filterMap id).length

/-- Modelled from the spec: the packed per-group draw data, one record
per live group, in slot order. -/
def Flatland.groups_draw_data (fl : Flatland) : List GroupSlotData :=
  fl.groups.filterMap id

/-- Modelled from the spec (section 4.4): the GPU-side mirror held by
the `buffers` module - shared vertex and index buffers, the packed
per-group instance buffer, and the indirect-draw-command buffer with its
command count (`indirect.len` in `mod.rs`). -/
structure Buffers where
  vertices : List FlatlanderVertex
  indices : List Nat
  groupsData : List GroupSlotData
  indirectLen : Nat
deriving DecidableEq

/-- `buffers::Buffers::new(gl)`: freshly allocated, empty GPU buffers. -/
def Buffers.new : Buffers :=
  { vertices := [], indices := [], groupsData := [], indirectLen := 0 }

/-- Modelled from the spec: re-upload the full vertex contents. -/
def Buffers.upload_vertices (b : Buffers) (vs : List FlatlanderVertex) : Buffers :=
  { b with vertices := vs }

/-- Modelled from the spec: re-upload the full index contents. -/
def Buffers.upload_indices (b : Buffers) (ix : List Nat) : Buffers :=
  { b with indices := ix }

/-- Modelled from the spec: re-upload the packed per-group instance
data. -/
def Buffers.upload_groups (b : Buffers) (ds : List GroupSlotData) : Buffers :=
  { b with groupsData := ds }

/-- Modelled from the spec: re-upload the indirect-draw-command array,
one command per live group; `indirect.len` becomes the live-group
count passed by the caller. -/
def Buffers.upload_draw_commands (b : Buffers) (n : Nat) (ds : List GroupSlotData) : Buffers :=
  { b with groupsData := ds, indirectLen := n }

/-- Modelled from the spec: `DrawIndirectCmd` is a fixed-size record
whose size is known at compile time (five 4-byte fields in the standard
indirect-elements command layout); the missing `buffers` module defines
it. -/
def drawIndirectCmdSize : Nat := 20

/-- One observable GPU-side effect of the code in `mod.rs`; `render` and
the dirty-channel resolution return the trace of effects they perform. -/
inductive Effect where
  | allocBuffers
  | uploadVertices (n : Nat)
  | uploadIndices (n : Nat)
  | uploadGroups (n : Nat)
  | uploadDrawCommands (n : Nat)
  | setUsed
  | setUniformMatrix4fv
  | bindVao
  | bindIndirectBuffer
  | setDefaultBlendFunc
  | frontFaceCW
  | polygonModeLine
  | queryMultiDrawCapability (loaded : Bool)
  | multiDrawElementsIndirect (count : Nat) (stride : Nat)
  | drawElementsIndirect (offset : Nat)
  | polygonModeFill
  | frontFaceCCW
  | unbindIndirectBuffer
  | unbindVao
deriving DecidableEq

/-- The `Flatlander` struct of `mod.rs`: the shader-program uniform
location resolved at construction, the shared `flatland` registry, the
lazily allocated GPU buffers, and the two toggles. -/
structure Flatlander where
  program_view_projection_location : Option Int
  flatland : Flatland
  buffers : Option Buffers
  draw_enabled : Bool
  wireframe : Bool
deriving DecidableEq

/-- `Flatlander::new`: shader-program loading is an external
collaborator (its failure aborts construction and is not modelled);
on success the registry is empty, no buffers exist, drawing is enabled
and wireframe is off. -/
def Flatlander.new (loc : Option Int) : Flatlander :=
  { program_view_projection_location := loc, flatland := Flatland.new,
    buffers := none, draw_enabled := true, wireframe := false }

/-- `Flatlander::toggle`: flip `draw_enabled`. -/
def Flatlander.toggle (s : Flatlander) : Flatlander :=
  { s with draw_enabled := !s.draw_enabled }

/-- `Flatlander::toggle_wireframe`: flip `wireframe`. -/
def Flatlander.toggle_wireframe (s : Flatlander) : Flatlander :=
  { s with wireframe := !s.wireframe }

/-- First dirty channel of
`Flatlander::check_if_invalidated_and_reinitialize` (mod.rs lines
49-60): if the alphabet-geometry channel is dirty, allocate the GPU
buffers when they do not yet exist, upload the full vertex and index
contents, and clear the flag. -/
def resolve_geometry_channel (s : Flatlander) : Flatlander × List Effect :=
  if s.flatland.alphabets_invalidated then
    let p : Buffers × List Effect :=
      match s.buffers with
      | none => (Buffers.new, [Effect.allocBuffers])
      | some b => (b, [])
    let nv := Flatland.alphabet_vertices_len s.flatland
    let ni := Flatland.alphabet_indices_len s.flatland
    let b1 := Buffers.upload_vertices p.1 (Flatland.alphabet_vertices s.flatland)
    let b2 := Buffers.upload_indices b1 (Flatland.alphabet_indices s.flatland)
    ({ s with buffers := some b2,
              flatland := { s.flatland with alphabets_invalidated := false } },
     p.2 ++ [Effect.uploadVertices nv, Effect.uploadIndices ni])
  else (s, [])

/-- Third dirty channel (mod.rs lines 74-84): if the draw-command
channel is dirty and the buffers do not exist, return early keeping the
flag; otherwise upload the indirect-draw commands and clear the flag. -/
def resolve_draw_channel (s : Flatlander) : Flatlander × List Effect :=
  if s.flatland.draw_invalidated then
    match s.buffers with
    | none => (s, [])
    | some b =>
      let n := Flatland.groups_len s.flatland
      let b2 := Buffers.upload_draw_commands b n (Flatland.groups_draw_data s.flatland)
      ({ s with buffers := some b2,
                flatland := { s.flatland with draw_invalidated := false } },
       [Effect.uploadDrawCommands n])
  else (s, [])

/-- Second dirty channel (mod.rs lines 62-72) followed by the third:
if the instance-data channel is dirty and the buffers do not exist,
return early (skipping the draw-command channel too, as the source's
`return` does); otherwise upload the packed group data, clear the flag
and continue with the draw-command channel.  Returns the state, the
instance-channel trace and the draw-channel trace. -/
def resolve_groups_channel (s : Flatlander) : (Flatlander × List Effect) × List Effect :=
  if s.flatland.groups_invalidated then
    match s.buffers with
    | none => ((s, []), [])
    | some b =>
      let n := Flatland.groups_len s.flatland
      let b2 := Buffers.upload_groups b (Flatland.groups_draw_data s.flatland)
      let s2 := { s with buffers := some b2,
                         flatland := { s.flatland with groups_invalidated := false } }
      let r := resolve_draw_channel s2
      ((r.1, [Effect.uploadGroups n]), r.2)
  else
    let r := resolve_draw_channel s
    ((r.1, []), r.2)

/-- `Flatlander::check_if_invalidated_and_reinitialize` (mod.rs lines
46-85; the source name carries a longer suffix): resolve the three
dirty channels in order - geometry, instance data, draw commands. -/
def check_if_invalidated_and_reinit (s : Flatlander) : Flatlander × List Effect :=
  let p := resolve_geometry_channel s
  let q := resolve_groups_channel p.1
  (q.1.1, p.2 ++ q.1.2 ++ q.2)

/-- `Flatlander::render` (mod.rs lines 96-150): if drawing is enabled,
resolve the dirty channels, and when GPU buffers exist bind program and
buffers, set the uniform when its location was found, apply blend,
winding and polygon-mode state, query the `MultiDrawElementsIndirect`
capability and dispatch either one multi-draw call or one indirect draw
per command, then restore state and unbind.  `loaded` is the driver's
answer to the capability query. -/
def Flatlander.render (s : Flatlander) (loaded : Bool) : Flatlander × List Effect :=
  if s.draw_enabled then
    let p := check_if_invalidated_and_reinit s
    match p.1.buffers with
    | some b =>
      let uniformEffs : List Effect :=
        match p.1.program_view_projection_location with
        | some _ => [Effect.setUniformMatrix4fv]
        | none => []
      let wireOn : List Effect := if p.1.wireframe then [Effect.polygonModeLine] else []
      let wireOff : List Effect := if p.1.wireframe then [Effect.polygonModeFill] else []
      let draws : List Effect :=
        if loaded then [Effect.multiDrawElementsIndirect b.indirectLen drawIndirectCmdSize]
        else (List.range b.indirectLen).map (fun i => Effect.drawElementsIndirect (i * drawIndirectCmdSize))
      (p.1, p.2 ++ [Effect.setUsed] ++ uniformEffs
            ++ [Effect.bindVao, Effect.bindIndirectBuffer,
                Effect.setDefaultBlendFunc, Effect.frontFaceCW]
            ++ wireOn
            ++ [Effect.queryMultiDrawCapability loaded]
            ++ draws
            ++ wireOff
            ++ [Effect.frontFaceCCW, Effect.unbindIndirectBuffer, Effect.unbindVao])
    | none => p
  else (s, [])

/-- A caller-visible mutation of the system, mirroring the public
surface of `mod.rs`: alphabet handle creation, duplication and release
(`Flatlander::create_alphabet`, `Alphabet::clone`, `Alphabet::drop`),
entry addition, group construction and release (`FlatlandGroup::new`,
`FlatlandGroup::drop`), the group updates, the two toggles and
`render`. -/
inductive Op where
  | createAlphabet
  | cloneAlphabet (slot : Nat)
  | dropAlphabet (slot : Nat)
  | addEntry (slot : Nat) (id : Nat) (vs : List FlatlanderVertex) (ix : List Nat)
  | newGroup (slot : Nat) (t : Projective3) (c : Vector4u8) (items : List FlatlandItem)
  | dropGroup (j : Nat)
  | updateItems (j : Nat) (items : List FlatlandItem)
  | updateTransform (j : Nat) (t : Projective3)
  | updateColor (j : Nat) (c : Vector4u8)
  | toggle
  | toggleWireframe
  | render (loaded : Bool)
deriving DecidableEq

/-- The whole system together with ghost bookkeeping of the live handle
values of `mod.rs`: `handles` is the multiset of alphabet slots
referenced by caller-held `Alphabet` values, and `liveGroups` records
each live `FlatlandGroup` value as (the slot of its internally held
`Alphabet` clone, its group slot). -/
structure World where
  st : Flatlander
  handles : List Nat
  liveGroups : List (Nat × Nat)
deriving DecidableEq

/-- The freshly constructed system: no handles, no groups. -/
def World.init : World :=
  { st := Flatlander.new none, handles := [], liveGroups := [] }

/-- One caller operation.  Operations on handles the caller does not
hold (or group values that do not exist) cannot be expressed in the
source language and are no-ops here. -/
def World.applyOp (w : World) (op : Op) : World :=
  match op with
  | .createAlphabet =>
    let p := Flatland.create_alphabet w.st.flatland
    { w with st := { w.st with flatland := p.1 }, handles := p.2 :: w.handles }
  | .cloneAlphabet s =>
    if s ∈ w.handles then
      { w with st := { w.st with flatland := Flatland.inc_alphabet w.st.flatland s },
               handles := s :: w.handles }
    else w
  | .dropAlphabet s =>
    if s ∈ w.handles then
      { w with st := { w.st with flatland := Flatland.dec_alphabet w.st.flatland s },
               handles := w.handles.erase s }
    else w
  | .addEntry s id vs ix =>
    if s ∈ w.handles then
      { w with st := { w.st with
          flatland := (Flatland.add_alphabet_entry w.st.flatland s id vs ix).1 } }
    else w
  | .newGroup s t c items =>
    if s ∈ w.handles then
      let p := Flatland.create_flatland_group_with_items w.st.flatland t c s items
      let fl2 := Flatland.inc_alphabet p.1 s
      let fl3 := Flatland.dec_alphabet fl2 s
      { w with st := { w.st with flatland := fl3 },
               handles := w.handles.erase s,
               liveGroups := w.liveGroups ++ [(s, p.2)] }
    else w
  | .dropGroup j =>
    match w.liveGroups[j]? with
    | some ag =>
      let fl1 := Flatland.delete_flatland_group w.st.flatland ag.2
      let fl2 := Flatland.dec_alphabet fl1 ag.1
      { w with st := { w.st with flatland := fl2 },
               liveGroups := w.liveGroups.eraseIdx j }
    | none => w
  | .updateItems j items =>
    match w.liveGroups[j]? with
    | some ag =>
      { w with st := { w.st with flatland := Flatland.update_items w.st.flatland ag.2 items } }
    | none => w
  | .updateTransform j t =>
    match w.liveGroups[j]? with
    | some ag =>
      { w with st := { w.st with flatland := Flatland.update_transform w.st.flatland ag.2 t } }
    | none => w
  | .updateColor j c =>
    match w.liveGroups[j]? with
    | some ag =>
      { w with st := { w.st with flatland := Flatland.update_color w.st.flatland ag.2 c } }
    | none => w
  | .toggle => { w with st := Flatlander.toggle w.st }
  | .toggleWireframe => { w with st := Flatlander.toggle_wireframe w.st }
  | .render loaded => { w with st := (Flatlander.render w.st loaded).1 }

/-- A finite sequence of caller operations applied from a start state. -/
def World.applyOps (ops : List Op) (w : World) : World :=
  ops.foldl World.applyOp w

/-- The registry refcount a slot index resolves to (0 when the index is
out of range). -/
def refListAt (l : List AlphabetData) (s : Nat) : Nat :=
  match l[s]? with
  | some a => a.refcount
  | none => 0

/-- The registry refcount of an alphabet slot. -/
def Flatland.refcountAt (fl : Flatland) (s : Nat) : Nat :=
  refListAt fl.alphabets s

/-- The number of live `Alphabet` handle values referencing a slot:
caller-held handles plus the clones held internally by live
`FlatlandGroup` values. -/
def World.handleCount (w : World) (s : Nat) : Nat :=
  w.handles.count s + (w.liveGroups.map Prod.fst).count s

/-- The refcount invariant of the spec: every alphabet slot's registry
refcount equals the number of live handle values referencing it. -/
def World.refcountInvariant (w : World) : Prop :=
  ∀ s : Nat, World.handleCount w s = Flatland.refcountAt w.st.flatland s

/-- Effects belonging to the geometry channel: buffer allocation and
the vertex/index uploads. -/
def isGeometryUploadEffect : Effect → Bool
  | .allocBuffers => true
  | .uploadVertices _ => true
  | .uploadIndices _ => true
  | _ => false

/-- Effects belonging to the instance-data channel. -/
def isInstanceUploadEffect : Effect → Bool
  | .uploadGroups _ => true
  | _ => false

/-- Effects belonging to the draw-command channel. -/
def isCommandUploadEffect : Effect → Bool
  | .uploadDrawCommands _ => true
  | _ => false

/-- The capability query (`gl.MultiDrawElementsIndirect.is_loaded()`). -/
def isCapabilityQueryEffect : Effect → Bool
  | .queryMultiDrawCapability _ => true
  | _ => false

/-- The native multi-draw dispatch call. -/
def isMultiDrawEffect : Effect → Bool
  | .multiDrawElementsIndirect _ _ => true
  | _ => false

/-- The per-command fallback dispatch call. -/
def isSingleIndirectDrawEffect : Effect → Bool
  | .drawElementsIndirect _ => true
  | _ => false

/-- A reachable state with a live group but no geometry ever uploaded:
one alphabet is created and a group is built from it, so the instance
and command channels are dirty while no GPU buffers exist. -/
def wGroupNoGeometry : World :=
  World.applyOps [Op.createAlphabet, Op.newGroup 0 ⟨0⟩ ⟨0, 0, 0, 0⟩ []] World.init

/-- A reachable state that has rendered once: an alphabet with one
entry was created and `render` ran, so the GPU buffers exist and all
channels are clean. -/
def wRendered : World :=
  World.applyOps [Op.createAlphabet, Op.addEntry 0 1 [⟨0⟩] [0], Op.render true] World.init

/-- A reachable state with GPU buffers present and the instance and
command channels dirty again (a group was created after the first
render). -/
def wRetry : World :=
  World.applyOps
    [Op.createAlphabet, Op.addEntry 0 1 [⟨0⟩] [0], Op.render true,
     Op.cloneAlphabet 0, Op.newGroup 0 ⟨0⟩ ⟨0, 0, 0, 0⟩ []] World.init

/-- A reachable state holding one caller handle on slot 0. -/
def wOneHandle : World :=
  World.applyOps [Op.createAlphabet] World.init

/-- A reachable state with one live group whose construction kept a
second caller handle alive. -/
def wOneGroup : World :=
  World.applyOps
    [Op.createAlphabet, Op.cloneAlphabet 0, Op.newGroup 0 ⟨0⟩ ⟨0, 0, 0, 0⟩ []] World.init

theorem getElem?_modifyAt_self (l : List α) (i : Nat) (f : α → α) :
    (modifyAt l i f)[i]? = (l[i]?).map f := by
  induction l generalizing i with
  | nil => simp [modifyAt]
  | cons x xs ih =>
    cases i with
    | zero => simp [modifyAt]
    | succ n => simpa [modifyAt] using ih n

theorem getElem?_modifyAt_ne (l : List α) (i j : Nat) (f : α → α) (h : j ≠ i) :
    (modifyAt l i f)[j]? = l[j]? := by
  induction l generalizing i j with
  | nil => simp [modifyAt]
  | cons x xs ih =>
    cases i with
    | zero =>
      cases j with
      | zero => exact absurd rfl h
      | succ m => simp [modifyAt]
    | succ n =>
      cases j with
      | zero => simp [modifyAt]
      | succ m =>
        simpa [modifyAt] using ih n m (fun hc => h (by omega))

theorem refListAt_cons_zero (a : AlphabetData) (l : List AlphabetData) :
    refListAt (a :: l) 0 = a.refcount := by
  unfold refListAt
  rw [List.getElem?_cons_zero]

theorem refListAt_cons_succ (a : AlphabetData) (l : List AlphabetData) (n : Nat) :
    refListAt (a :: l) (n + 1) = refListAt l n := by
  unfold refListAt
  rw [List.getElem?_cons_succ]

theorem refListAt_nil (s : Nat) : refListAt [] s = 0 := by
  cases s <;> rfl

theorem refListAt_modifyAt_refcount_eq (l : List AlphabetData) (i j : Nat)
    (f : AlphabetData → AlphabetData) (hf : ∀ a, (f a).refcount = a.refcount) :
    refListAt (modifyAt l i f) j = refListAt l j := by
  by_cases h : j = i
  · subst h
    unfold refListAt
    rw [getElem?_modifyAt_self]
    cases l[j]? with
    | none => rfl
    | some a => simp [hf]
  · unfold refListAt
    rw [getElem?_modifyAt_ne l i j f h]

theorem refcountAt_pos_lt_length (fl : Flatland) (s : Nat)
    (h : 0 < Flatland.refcountAt fl s) : s < fl.alphabets.length := by
  by_contra hc
  have hn : fl.alphabets[s]? = none := List.getElem?_eq_none (by omega)
  unfold Flatland.refcountAt refListAt at h
  rw [hn] at h
  simp at h

theorem refcountAt_inc_self (fl : Flatland) (s : Nat) (h : s < fl.alphabets.length) :
    Flatland.refcountAt (Flatland.inc_alphabet fl s) s = Flatland.refcountAt fl s + 1 := by
  unfold Flatland.refcountAt Flatland.inc_alphabet refListAt
  rw [getElem?_modifyAt_self, List.getElem?_eq_getElem h]
  simp

theorem refcountAt_dec_self (fl : Flatland) (s : Nat) (h : s < fl.alphabets.length) :
    Flatland.refcountAt (Flatland.dec_alphabet fl s) s = Flatland.refcountAt fl s - 1 := by
  unfold Flatland.refcountAt Flatland.dec_alphabet refListAt
  rw [getElem?_modifyAt_self, List.getElem?_eq_getElem h]
  simp

theorem refcountAt_inc_ne (fl : Flatland) (s j : Nat) (h : j ≠ s) :
    Flatland.refcountAt (Flatland.inc_alphabet fl s) j = Flatland.refcountAt fl j := by
  unfold Flatland.refcountAt Flatland.inc_alphabet refListAt
  rw [getElem?_modifyAt_ne _ _ _ _ h]

theorem refcountAt_dec_ne (fl : Flatland) (s j : Nat) (h : j ≠ s) :
    Flatland.refcountAt (Flatland.dec_alphabet fl s) j = Flatland.refcountAt fl j := by
  unfold Flatland.refcountAt Flatland.dec_alphabet refListAt
  rw [getElem?_modifyAt_ne _ _ _ _ h]

theorem refcountAt_dec_inc (fl : Flatland) (s j : Nat) :
    Flatland.refcountAt (Flatland.dec_alphabet (Flatland.inc_alphabet fl s) s) j
      = Flatland.refcountAt fl j := by
  by_cases h : j = s
  · subst h
    unfold Flatland.refcountAt Flatland.dec_alphabet Flatland.inc_alphabet refListAt
    rw [getElem?_modifyAt_self, getElem?_modifyAt_self]
    cases fl.alphabets[j]? with
    | none => rfl
    | some a => simp
  · rw [refcountAt_dec_ne _ _ _ h, refcountAt_inc_ne _ _ _ h]

theorem allocSlot_refcount_new (l : List AlphabetData) :
    refListAt (allocSlot l).1 (allocSlot l).2 = 1 := by
  induction l with
  | nil => rfl
  | cons a rest ih =>
    unfold allocSlot
    by_cases h : a.refcount = 0
    · simp [h, refListAt_cons_zero]
    · simp only [h, if_false]
      simpa [refListAt_cons_succ] using ih

theorem allocSlot_refcount_old (l : List AlphabetData) :
    refListAt l (allocSlot l).2 = 0 := by
  induction l with
  | nil => simp [allocSlot, refListAt_nil]
  | cons a rest ih =>
    unfold allocSlot
    by_cases h : a.refcount = 0
    · simp [h, refListAt_cons_zero]
    · simp only [h, if_false]
      simpa [refListAt_cons_succ] using ih

theorem allocSlot_refcount_other (l : List AlphabetData) (j : Nat)
    (h : j ≠ (allocSlot l).2) :
    refListAt (allocSlot l).1 j = refListAt l j := by
  induction l generalizing j with
  | nil =>
    unfold allocSlot at h ⊢
    cases j with
    | zero => exact absurd rfl h
    | succ m => simp [refListAt_cons_succ, refListAt_nil]
  | cons a rest ih =>
    unfold allocSlot at h ⊢
    by_cases ha : a.refcount = 0
    · simp only [ha, if_true] at h ⊢
      cases j with
      | zero => exact absurd rfl h
      | succ m => simp [refListAt_cons_succ]
    · simp only [ha, if_false] at h ⊢
      cases j with
      | zero => simp [refListAt_cons_zero]
      | succ m =>
        rw [refListAt_cons_succ, refListAt_cons_succ]
        exact ih m (fun hc => h (by simp [hc]))

theorem count_map_fst_eraseIdx (l : List (Nat × Nat)) (j : Nat) (p : Nat × Nat)
    (h : l[j]? = some p) (x : Nat) :
    ((l.eraseIdx j).map Prod.fst).count x + (if p.1 = x then 1 else 0)
      = (l.map Prod.fst).count x := by
  induction l generalizing j with
  | nil => simp at h
  | cons q rest ih =>
    cases j with
    | zero =>
      rw [List.getElem?_cons_zero] at h
      obtain rfl : q = p := by simpa using h
      simp [List.eraseIdx, List.count_cons]
    | succ m =>
      rw [List.getElem?_cons_succ] at h
      have := ih m h
      simp only [List.eraseIdx, List.map_cons, List.count_cons]
      omega

theorem resolve_draw_channel_alphabets (s : Flatlander) :
    (resolve_draw_channel s).1.flatland.alphabets = s.flatland.alphabets := by
  unfold resolve_draw_channel
  split
  · split <;> rfl
  · rfl

theorem resolve_draw_channel_groups (s : Flatlander) :
    (resolve_draw_channel s).1.flatland.groups = s.flatland.groups := by
  unfold resolve_draw_channel
  split
  · split <;> rfl
  · rfl

theorem resolve_groups_channel_alphabets (s : Flatlander) :
    (resolve_groups_channel s).1.1.flatland.alphabets = s.flatland.alphabets := by
  unfold resolve_groups_channel
  split
  · split
    · rfl
    · rw [resolve_draw_channel_alphabets]
  · rw [resolve_draw_channel_alphabets]

theorem resolve_groups_channel_groups (s : Flatlander) :
    (resolve_groups_channel s).1.1.flatland.groups = s.flatland.groups := by
  unfold resolve_groups_channel
  split
  · split
    · rfl
    · rw [resolve_draw_channel_groups]
  · rw [resolve_draw_channel_groups]

theorem resolve_geometry_channel_alphabets (s : Flatlander) :
    (resolve_geometry_channel s).1.flatland.alphabets = s.flatland.alphabets := by
  unfold resolve_geometry_channel
  split
  · rfl
  · rfl

theorem resolve_geometry_channel_groups (s : Flatlander) :
    (resolve_geometry_channel s).1.flatland.groups = s.flatland.groups := by
  unfold resolve_geometry_channel
  split <;> rfl

theorem check_if_invalidated_and_reinit_alphabets (s : Flatlander) :
    (check_if_invalidated_and_reinit s).1.flatland.alphabets = s.flatland.alphabets := by
  unfold check_if_invalidated_and_reinit
  rw [resolve_groups_channel_alphabets, resolve_geometry_channel_alphabets]

theorem check_if_invalidated_and_reinit_groups (s : Flatlander) :
    (check_if_invalidated_and_reinit s).1.flatland.groups = s.flatland.groups := by
  unfold check_if_invalidated_and_reinit
  rw [resolve_groups_channel_groups, resolve_geometry_channel_groups]

theorem render_state_eq (s : Flatlander) (loaded : Bool) :
    (Flatlander.render s loaded).1
      = if s.draw_enabled then (check_if_invalidated_and_reinit s).1 else s := by
  unfold Flatlander.render
  cases hd : s.draw_enabled
  · simp [hd]
  · cases hb : (check_if_invalidated_and_reinit s).1.buffers <;> simp [hd, hb]

theorem render_alphabets (s : Flatlander) (loaded : Bool) :
    (Flatlander.render s loaded).1.flatland.alphabets = s.flatland.alphabets := by
  rw [render_state_eq]
  split
  · rw [check_if_invalidated_and_reinit_alphabets]
  · rfl

theorem resolve_geometry_channel_trace (s : Flatlander) :
    ((resolve_geometry_channel s).2).all isGeometryUploadEffect = true := by
  unfold resolve_geometry_channel
  split
  · split <;> rfl
  · rfl

theorem resolve_draw_channel_trace (s : Flatlander) :
    ((resolve_draw_channel s).2).all isCommandUploadEffect = true := by
  unfold resolve_draw_channel
  split
  · split <;> rfl
  · rfl

theorem resolve_groups_channel_inst_trace (s : Flatlander) :
    ((resolve_groups_channel s).1.2).all isInstanceUploadEffect = true := by
  unfold resolve_groups_channel
  split
  · split <;> rfl
  · rfl

theorem resolve_groups_channel_cmd_trace (s : Flatlander) :
    ((resolve_groups_channel s).2).all isCommandUploadEffect = true := by
  unfold resolve_groups_channel
  split
  · split
    · rfl
    · exact resolve_draw_channel_trace _
  · exact resolve_draw_channel_trace _

/-- Claim C9: `toggle` and `toggle_wireframe` are involutive pure
boolean flips - applying either twice restores the original state, and
one application changes nothing besides its own flag (the registry, the
buffers, the uniform location and the other flag are untouched); both
are total functions, so they cannot fail. -/
theorem toggle_involutive_and_pure (s : Flatlander) :
    Flatlander.toggle (Flatlander.toggle s) = s ∧
    Flatlander.toggle_wireframe (Flatlander.toggle_wireframe s) = s ∧
    (Flatlander.toggle s).flatland = s.flatland ∧
    (Flatlander.toggle s).buffers = s.buffers ∧
    (Flatlander.toggle s).wireframe = s.wireframe ∧
    (Flatlander.toggle s).program_view_projection_location
      = s.program_view_projection_location ∧
    (Flatlander.toggle_wireframe s).flatland = s.flatland ∧
    (Flatlander.toggle_wireframe s).buffers = s.buffers ∧
    (Flatlander.toggle_wireframe s).draw_enabled = s.draw_enabled ∧
    (Flatlander.toggle_wireframe s).program_view_projection_location
      = s.program_view_projection_location := by
  simp [Flatlander.toggle, Flatlander.toggle_wireframe]

/-- Claim C6: when `draw_enabled` is false, `render` is a complete
no-op - the state (every field) is returned unchanged and the effect
trace is empty, even when dirty data is pending. -/
theorem render_noop_when_disabled (s : Flatlander) (loaded : Bool)
    (h : s.draw_enabled = false) :
    Flatlander.render s loaded = (s, []) := by
  unfold Flatlander.render
  simp [h]

/-- Witness for C6: a reachable state with pending dirty channels and
drawing toggled off; `render` leaves it untouched and performs no
effect. -/
theorem render_noop_when_disabled_witness :
    (Flatlander.toggle wGroupNoGeometry.st).draw_enabled = false ∧
    (Flatlander.toggle wGroupNoGeometry.st).flatland.groups_invalidated = true ∧
    Flatlander.render (Flatlander.toggle wGroupNoGeometry.st) true
      = (Flatlander.toggle wGroupNoGeometry.st, []) :=
  ⟨by decide, by decide, render_noop_when_disabled _ true (by decide)⟩

/-- Claim C7: calling `render` when no GPU buffers were ever allocated
and all dirty channels are clear returns normally with the state
unchanged and an empty effect trace - no draw call, no allocation, no
error. -/
theorem render_noop_without_buffers (s : Flatlander) (loaded : Bool)
    (hb : s.buffers = none)
    (ha : s.flatland.alphabets_invalidated = false)
    (hg : s.flatland.groups_invalidated = false)
    (hd : s.flatland.draw_invalidated = false) :
    Flatlander.render s loaded = (s, []) := by
  have hres : check_if_invalidated_and_reinit s = (s, []) := by
    unfold check_if_invalidated_and_reinit resolve_geometry_channel
      resolve_groups_channel resolve_draw_channel
    simp [ha, hg, hd]
  unfold Flatlander.render
  cases hde : s.draw_enabled
  · simp
  · simp [hres, hb]

/-- Witness for C7: the freshly constructed system has no buffers and
clean channels; `render` is a silent no-op on it. -/
theorem render_noop_without_buffers_witness :
    Flatlander.render (Flatlander.new none) true = (Flatlander.new none, []) :=
  render_noop_without_buffers _ true rfl rfl rfl rfl

/-- Claim C8: every resolve's effect trace decomposes as the geometry
channel's effects, then the instance channel's, then the draw-command
channel's, in this order; buffer allocation is a geometry-channel
effect, so only the geometry channel allocates the GPU buffers. -/
theorem resolve_channel_order (s : Flatlander) :
    ∃ e1 e2 e3 : List Effect,
      (check_if_invalidated_and_reinit s).2 = e1 ++ e2 ++ e3 ∧
      e1.all isGeometryUploadEffect = true ∧
      e2.all isInstanceUploadEffect = true ∧
      e3.all isCommandUploadEffect = true :=
  ⟨(resolve_geometry_channel s).2,
   (resolve_groups_channel (resolve_geometry_channel s).1).1.2,
   (resolve_groups_channel (resolve_geometry_channel s).1).2,
   rfl,
   resolve_geometry_channel_trace s,
   resolve_groups_channel_inst_trace _,
   resolve_groups_channel_cmd_trace _⟩

/-- Claim C3: in the resolve routine a channel's flag is cleared only
after its upload actually runs; when the instance-data or draw-command
upload is skipped because the GPU buffers do not exist, that channel's
flag and every later channel's flag are left untouched (so they remain
set if they were set), and a resolve in a state where the buffers exist
(or the geometry channel is dirty, which allocates them) uploads the
still-dirty channels and clears their flags. -/
theorem resolve_flag_cleared_only_after_upload (s : Flatlander) :
    ((s.buffers = none ∧ s.flatland.alphabets_invalidated = false) →
      (check_if_invalidated_and_reinit s).1.flatland.groups_invalidated
          = s.flatland.groups_invalidated ∧
      (check_if_invalidated_and_reinit s).1.flatland.draw_invalidated
          = s.flatland.draw_invalidated ∧
      List.countP isInstanceUploadEffect (check_if_invalidated_and_reinit s).2 = 0 ∧
      List.countP isCommandUploadEffect (check_if_invalidated_and_reinit s).2 = 0) ∧
    (((check_if_invalidated_and_reinit s).1.flatland.groups_invalidated = false ∧
        s.flatland.groups_invalidated = true) →
      List.countP isInstanceUploadEffect (check_if_invalidated_and_reinit s).2 = 1) ∧
    (((check_if_invalidated_and_reinit s).1.flatland.draw_invalidated = false ∧
        s.flatland.draw_invalidated = true) →
      List.countP isCommandUploadEffect (check_if_invalidated_and_reinit s).2 = 1) ∧
    ((s.buffers.isSome = true ∨ s.flatland.alphabets_invalidated = true) →
      (s.flatland.groups_invalidated = true →
        (check_if_invalidated_and_reinit s).1.flatland.groups_invalidated = false ∧
        List.countP isInstanceUploadEffect (check_if_invalidated_and_reinit s).2 = 1) ∧
      (s.flatland.draw_invalidated = true →
        (check_if_invalidated_and_reinit s).1.flatland.draw_invalidated = false ∧
        List.countP isCommandUploadEffect (check_if_invalidated_and_reinit s).2 = 1)) := by
  obtain ⟨loc, ⟨al, gr, ai, gi, di⟩, bufs, de, wf⟩ := s
  cases ai <;> cases gi <;> cases di <;> cases bufs <;>
    simp [check_if_invalidated_and_reinit, resolve_geometry_channel,
          resolve_groups_channel, resolve_draw_channel,
          isInstanceUploadEffect, isCommandUploadEffect,
          List.countP_cons, List.countP_nil, List.countP_append]

/-- Witness for C3: in the reachable buffer-less state the skipped
channels keep their flags and perform no upload; in the reachable
state with buffers present the still-dirty instance channel is
uploaded and cleared. -/
theorem resolve_flag_cleared_only_after_upload_witness :
    ((check_if_invalidated_and_reinit wGroupNoGeometry.st).1.flatland.groups_invalidated
        = wGroupNoGeometry.st.flatland.groups_invalidated ∧
      (check_if_invalidated_and_reinit wGroupNoGeometry.st).1.flatland.draw_invalidated
        = wGroupNoGeometry.st.flatland.draw_invalidated ∧
      List.countP isInstanceUploadEffect
        (check_if_invalidated_and_reinit wGroupNoGeometry.st).2 = 0 ∧
      List.countP isCommandUploadEffect
        (check_if_invalidated_and_reinit wGroupNoGeometry.st).2 = 0) ∧
    ((check_if_invalidated_and_reinit wRetry.st).1.flatland.groups_invalidated = false ∧
      List.countP isInstanceUploadEffect (check_if_invalidated_and_reinit wRetry.st).2 = 1) :=
  ⟨(resolve_flag_cleared_only_after_upload wGroupNoGeometry.st).1 ⟨by decide, by decide⟩,
   ((resolve_flag_cleared_only_after_upload wRetry.st).2.2.2 (Or.inl (by decide))).1 (by decide)⟩

/-- Claim C2 counterexample: the reachable state built by creating an
alphabet and then a group from it (before any geometry upload) has no
GPU buffers and a clean geometry channel; one resolve leaves both the
instance-data and draw-command channels still dirty, so a single
resolve does not clear all three channels. -/
theorem dirty_convergence_counterexample :
    (check_if_invalidated_and_reinit wGroupNoGeometry.st).1.flatland.groups_invalidated = true ∧
    (check_if_invalidated_and_reinit wGroupNoGeometry.st).1.flatland.draw_invalidated = true := by
  decide

/-- Claim C2 (amended): after any finite sequence of mutations, one
resolve always clears the geometry channel, and clears all three
channels provided the GPU buffers exist when the instance channel is
reached (they already existed, or the geometry channel was dirty and
allocated them); otherwise the skipped channels stay dirty.  A resolve
in a state with no dirty channel performs zero uploads and leaves the
state unchanged. -/
theorem dirty_convergence_amended (s : Flatlander) :
    (check_if_invalidated_and_reinit s).1.flatland.alphabets_invalidated = false ∧
    ((s.buffers.isSome = true ∨ s.flatland.alphabets_invalidated = true) →
      (check_if_invalidated_and_reinit s).1.flatland.groups_invalidated = false ∧
      (check_if_invalidated_and_reinit s).1.flatland.draw_invalidated = false) ∧
    ((s.flatland.alphabets_invalidated = false ∧ s.flatland.groups_invalidated = false ∧
        s.flatland.draw_invalidated = false) →
      check_if_invalidated_and_reinit s = (s, [])) := by
  obtain ⟨loc, ⟨al, gr, ai, gi, di⟩, bufs, de, wf⟩ := s
  cases ai <;> cases gi <;> cases di <;> cases bufs <;>
    simp [check_if_invalidated_and_reinit, resolve_geometry_channel,
          resolve_groups_channel, resolve_draw_channel]

/-- Witness for C2 (amended): the state with buffers and fresh dirty
channels converges in one resolve, and a resolve of the clean
just-rendered state is a no-op. -/
theorem dirty_convergence_amended_witness :
    ((check_if_invalidated_and_reinit wRetry.st).1.flatland.groups_invalidated = false ∧
      (check_if_invalidated_and_reinit wRetry.st).1.flatland.draw_invalidated = false) ∧
    check_if_invalidated_and_reinit wRendered.st = (wRendered.st, []) :=
  ⟨(dirty_convergence_amended wRetry.st).2.1 (Or.inl (by decide)),
   (dirty_convergence_amended wRendered.st).2.2 ⟨by decide, by decide, by decide⟩⟩

theorem resolve_trace_no_query (s : Flatlander) :
    List.countP isCapabilityQueryEffect (check_if_invalidated_and_reinit s).2 = 0 ∧
    List.countP isMultiDrawEffect (check_if_invalidated_and_reinit s).2 = 0 := by
  obtain ⟨loc, ⟨al, gr, ai, gi, di⟩, bufs, de, wf⟩ := s
  cases ai <;> cases gi <;> cases di <;> cases bufs <;>
    simp [check_if_invalidated_and_reinit, resolve_geometry_channel,
          resolve_groups_channel, resolve_draw_channel,
          isCapabilityQueryEffect, isMultiDrawEffect]

/-- Claim C4 counterexample: in the reachable state that has already
rendered once (buffers exist, channels clean), a subsequent `render`
call performs the `MultiDrawElementsIndirect.is_loaded()` capability
query again - the code queries the capability inside every draw
dispatch, not once at initialization. -/
theorem capability_requery_counterexample :
    List.countP isCapabilityQueryEffect (Flatlander.render wRendered.st true).2 = 1 := by
  decide

/-- Claim C4 (amended): the native multi-draw capability is queried
anew on every `render` call that reaches the draw dispatch (drawing
enabled and GPU buffers present after resolve) - exactly one query per
such call, not once at initialization - and the queried value selects
the strategy: the single native multi-draw call is issued exactly when
the capability is loaded, otherwise the per-command loop runs. -/
theorem render_queries_capability_per_call (s : Flatlander) (loaded : Bool)
    (h1 : s.draw_enabled = true)
    (h2 : ((check_if_invalidated_and_reinit s).1.buffers).isSome = true) :
    List.countP isCapabilityQueryEffect (Flatlander.render s loaded).2 = 1 ∧
    List.countP isMultiDrawEffect (Flatlander.render s loaded).2
      = (if loaded then 1 else 0) := by
  obtain ⟨b, hb⟩ := Option.isSome_iff_exists.1 h2
  have hq := (resolve_trace_no_query s).1
  have hm := (resolve_trace_no_query s).2
  unfold Flatlander.render
  cases hloc : (check_if_invalidated_and_reinit s).1.program_view_projection_location <;>
    cases hwf : (check_if_invalidated_and_reinit s).1.wireframe <;>
      cases loaded <;>
        simp [h1, hb, hloc, hwf, hq, hm, List.countP_append, List.countP_cons,
              List.countP_map, isCapabilityQueryEffect, isMultiDrawEffect,
              Function.comp]

/-- Witness for C4 (amended): a concrete subsequent render with the
capability absent still queries once and issues no native multi-draw
call. -/
theorem render_queries_capability_per_call_witness :
    List.countP isCapabilityQueryEffect (Flatlander.render wRendered.st false).2 = 1 ∧
    List.countP isMultiDrawEffect (Flatlander.render wRendered.st false).2
      = (if false then 1 else 0) :=
  render_queries_capability_per_call wRendered.st false (by decide) (by decide)

theorem applyOp_preserves_refcountInvariant (w : World) (op : Op)
    (h : World.refcountInvariant w) :
    World.refcountInvariant (World.applyOp w op) := by
  unfold World.refcountInvariant at h ⊢
  simp only [World.handleCount] at h ⊢
  cases op with
  | createAlphabet =>
    intro s
    simp only [World.applyOp, Flatland.create_alphabet, Flatland.refcountAt]
    by_cases hs : s = (allocSlot w.st.flatland.alphabets).2
    · subst hs
      have h0 := h (allocSlot w.st.flatland.alphabets).2
      simp only [Flatland.refcountAt] at h0
      rw [allocSlot_refcount_old] at h0
      rw [List.count_cons_self, allocSlot_refcount_new]
      omega
    · rw [List.count_cons_of_ne hs, allocSlot_refcount_other _ _ hs]
      have h0 := h s
      simp only [Flatland.refcountAt] at h0
      exact h0
  | cloneAlphabet s0 =>
    intro s
    simp only [World.applyOp]
    by_cases hmem : s0 ∈ w.handles
    · simp only [if_pos hmem]
      have hpos : 0 < Flatland.refcountAt w.st.flatland s0 := by
        have h0 := h s0
        have hc : 0 < w.handles.count s0 := List.count_pos_iff.2 hmem
        omega
      have hlt := refcountAt_pos_lt_length _ _ hpos
      by_cases hs : s = s0
      · subst hs
        rw [List.count_cons_self, refcountAt_inc_self _ _ hlt]
        have h0 := h s
        omega
      · rw [List.count_cons_of_ne hs, refcountAt_inc_ne _ _ _ hs]
        exact h s
    · simp only [if_neg hmem]
      exact h s
  | dropAlphabet s0 =>
    intro s
    simp only [World.applyOp]
    by_cases hmem : s0 ∈ w.handles
    · simp only [if_pos hmem]
      have hcpos : 0 < w.handles.count s0 := List.count_pos_iff.2 hmem
      have hpos : 0 < Flatland.refcountAt w.st.flatland s0 := by
        have h0 := h s0
        omega
      have hlt := refcountAt_pos_lt_length _ _ hpos
      by_cases hs : s = s0
      · subst hs
        rw [List.count_erase_self, refcountAt_dec_self _ _ hlt]
        have h0 := h s
        omega
      · rw [List.count_erase_of_ne hs, refcountAt_dec_ne _ _ _ hs]
        exact h s
    · simp only [if_neg hmem]
      exact h s
  | addEntry s0 id vs ix =>
    intro s
    simp only [World.applyOp]
    by_cases hmem : s0 ∈ w.handles
    · simp only [if_pos hmem]
      have heq : Flatland.refcountAt (Flatland.add_alphabet_entry w.st.flatland s0 id vs ix).1 s
          = Flatland.refcountAt w.st.flatland s := by
        simp only [Flatland.add_alphabet_entry, Flatland.refcountAt]
        exact refListAt_modifyAt_refcount_eq _ _ _ _ (fun a => rfl)
      rw [heq]
      exact h s
    · simp only [if_neg hmem]
      exact h s
  | newGroup s0 t c items =>
    intro s
    simp only [World.applyOp]
    by_cases hmem : s0 ∈ w.handles
    · simp only [if_pos hmem]
      have hcpos : 0 < w.handles.count s0 := List.count_pos_iff.2 hmem
      have hrc : Flatland.refcountAt
          (Flatland.dec_alphabet (Flatland.inc_alphabet
            (Flatland.create_flatland_group_with_items w.st.flatland t c s0 items).1 s0) s0) s
          = Flatland.refcountAt w.st.flatland s := by
        rw [refcountAt_dec_inc]
        rfl
      rw [hrc, List.map_append, List.count_append]
      simp only [List.map_cons, List.map_nil]
      rw [List.count_singleton']
      by_cases hs : s = s0
      · subst hs
        rw [List.count_erase_self, if_pos rfl]
        have h0 := h s
        omega
      · rw [List.count_erase_of_ne hs, if_neg (fun hc => hs hc.symm)]
        have h0 := h s
        omega
    · simp only [if_neg hmem]
      exact h s
  | dropGroup j =>
    intro s
    cases hj : w.liveGroups[j]? with
    | none =>
      simp only [World.applyOp, hj]
      exact h s
    | some ag =>
      simp only [World.applyOp, hj]
      have hmem : ag ∈ w.liveGroups := by
        obtain ⟨hlt, he⟩ := List.getElem?_eq_some.1 hj
        exact he ▸ List.getElem_mem hlt
      have hmemf : ag.1 ∈ w.liveGroups.map Prod.fst := List.mem_map_of_mem _ hmem
      have hgpos : 0 < (w.liveGroups.map Prod.fst).count ag.1 :=
        List.count_pos_iff.2 hmemf
      have hpos : 0 < Flatland.refcountAt w.st.flatland ag.1 := by
        have h0 := h ag.1
        omega
      have hltl := refcountAt_pos_lt_length _ _ hpos
      have hcnt := count_map_fst_eraseIdx w.liveGroups j ag hj s
      have hdel : ∀ jj, Flatland.refcountAt
          (Flatland.delete_flatland_group w.st.flatland ag.2) jj
          = Flatland.refcountAt w.st.flatland jj := fun jj => rfl
      have hltl2 : ag.1 < (Flatland.delete_flatland_group w.st.flatland ag.2).alphabets.length :=
        hltl
      by_cases hs : s = ag.1
      · rw [hs, refcountAt_dec_self _ _ hltl2, hdel]
        rw [hs, if_pos rfl] at hcnt
        have h0 := h ag.1
        omega
      · rw [refcountAt_dec_ne _ _ _ hs, hdel]
        rw [if_neg (fun hc => hs hc.symm)] at hcnt
        have h0 := h s
        omega
  | updateItems j items =>
    intro s
    cases hj : w.liveGroups[j]? with
    | none =>
      simp only [World.applyOp, hj]
      exact h s
    | some ag =>
      simp only [World.applyOp, hj]
      exact h s
  | updateTransform j t =>
    intro s
    cases hj : w.liveGroups[j]? with
    | none =>
      simp only [World.applyOp, hj]
      exact h s
    | some ag =>
      simp only [World.applyOp, hj]
      exact h s
  | updateColor j c =>
    intro s
    cases hj : w.liveGroups[j]? with
    | none =>
      simp only [World.applyOp, hj]
      exact h s
    | some ag =>
      simp only [World.applyOp, hj]
      exact h s
  | toggle =>
    intro s
    simp only [World.applyOp, Flatlander.toggle]
    exact h s
  | toggleWireframe =>
    intro s
    simp only [World.applyOp, Flatlander.toggle_wireframe]
    exact h s
  | render loaded =>
    intro s
    simp only [World.applyOp]
    have heq : Flatland.refcountAt (Flatlander.render w.st loaded).1.flatland s
        = Flatland.refcountAt w.st.flatland s := by
      unfold Flatland.refcountAt
      rw [render_alphabets]
    rw [heq]
    exact h s

theorem applyOps_preserves_refcountInvariant (ops : List Op) (w : World)
    (h : World.refcountInvariant w) :
    World.refcountInvariant (World.applyOps ops w) := by
  induction ops generalizing w with
  | nil => exact h
  | cons op rest ih =>
    simp only [World.applyOps, List.foldl] at ih ⊢
    exact ih _ (applyOp_preserves_refcountInvariant w op h)

theorem refcountInvariant_init : World.refcountInvariant World.init := by
  intro s
  simp [World.init, World.handleCount, Flatlander.new, Flatland.refcountAt,
        Flatland.new, refListAt_nil]

/-- Claim C1: in every state reachable from the fresh system by any
finite sequence of caller operations, every alphabet slot's registry
refcount equals the number of live `Alphabet` handle values referencing
that slot (caller-held handles plus the clones held inside live
`FlatlandGroup` values): `Alphabet::clone` increments the refcount of
the slot it aliases and adds a handle to the same slot,
`Alphabet::drop` decrements it and removes one, and every other
operation preserves the equality. -/
theorem refcount_invariant_reachable (ops : List Op) :
    World.refcountInvariant (World.applyOps ops World.init) :=
  applyOps_preserves_refcountInvariant ops World.init refcountInvariant_init

/-- Claim C10: `FlatlandGroup::new` consumes the caller's `Alphabet`
handle by value: the group stores a clone of the handle (aliasing the
same slot), the consumed argument is dropped when the constructor
returns, the alphabet's registry refcount is unchanged across the whole
construction (for every slot), and the caller's handle multiset loses
exactly the consumed handle. -/
theorem group_new_consumes_handle (w : World) (s0 : Nat) (t : Projective3)
    (c : Vector4u8) (items : List FlatlandItem) (hmem : s0 ∈ w.handles) :
    (∀ j, Flatland.refcountAt (World.applyOp w (Op.newGroup s0 t c items)).st.flatland j
        = Flatland.refcountAt w.st.flatland j) ∧
    (World.applyOp w (Op.newGroup s0 t c items)).handles = w.handles.erase s0 ∧
    (World.applyOp w (Op.newGroup s0 t c items)).liveGroups
      = w.liveGroups ++ [(s0,
          (Flatland.create_flatland_group_with_items w.st.flatland t c s0 items).2)] := by
  simp only [World.applyOp, if_pos hmem]
  refine ⟨fun j => ?_, ?_, ?_⟩
  · rw [refcountAt_dec_inc]
    rfl
  · trivial
  · trivial

/-- Witness for C10: consuming the only handle of a fresh alphabet
leaves the refcount unchanged and removes the caller's handle. -/
theorem group_new_consumes_handle_witness :
    Flatland.refcountAt
        (World.applyOp wOneHandle (Op.newGroup 0 ⟨0⟩ ⟨0, 0, 0, 0⟩ [])).st.flatland 0
      = Flatland.refcountAt wOneHandle.st.flatland 0 ∧
    (World.applyOp wOneHandle (Op.newGroup 0 ⟨0⟩ ⟨0, 0, 0, 0⟩ [])).handles
      = wOneHandle.handles.erase 0 :=
  ⟨(group_new_consumes_handle wOneHandle 0 ⟨0⟩ ⟨0, 0, 0, 0⟩ [] (by decide)).1 0,
   (group_new_consumes_handle wOneHandle 0 ⟨0⟩ ⟨0, 0, 0, 0⟩ [] (by decide)).2.1⟩

/-- Claim C5: constructing a `FlatlandGroup` clones the owning alphabet
handle - the clone's registry action increments the refcount of the
very slot it aliases - and the group stores that clone (a handle on the
same slot); releasing (dropping) the group deletes its group slot,
marks the draw-command channel dirty, and decrements the alphabet's
refcount by exactly 1 via the release of the internally held handle. -/
theorem group_lifecycle_refcount (w : World) (s0 j : Nat) (t : Projective3)
    (c : Vector4u8) (items : List FlatlandItem) (ag : Nat × Nat) :
    (∀ fl : Flatland, ∀ a : Nat, a < fl.alphabets.length →
      Flatland.refcountAt (Flatland.inc_alphabet fl a) a
        = Flatland.refcountAt fl a + 1) ∧
    (s0 ∈ w.handles →
      (World.applyOp w (Op.newGroup s0 t c items)).liveGroups
        = w.liveGroups ++ [(s0,
            (Flatland.create_flatland_group_with_items w.st.flatland t c s0 items).2)]) ∧
    (w.liveGroups[j]? = some ag →
      (World.applyOp w (Op.dropGroup j)).st.flatland.draw_invalidated = true ∧
      (ag.2 < w.st.flatland.groups.length →
        (World.applyOp w (Op.dropGroup j)).st.flatland.groups[ag.2]? = some none) ∧
      (1 ≤ Flatland.refcountAt w.st.flatland ag.1 →
        Flatland.refcountAt (World.applyOp w (Op.dropGroup j)).st.flatland ag.1 + 1
          = Flatland.refcountAt w.st.flatland ag.1) ∧
      (World.applyOp w (Op.dropGroup j)).liveGroups = w.liveGroups.eraseIdx j) := by
  refine ⟨fun fl a ha => refcountAt_inc_self fl a ha, fun hmem => ?_, fun hj => ?_⟩
  · simp only [World.applyOp, if_pos hmem]
  · simp only [World.applyOp, hj]
    refine ⟨?_, fun hlt => ?_, fun hpos => ?_, ?_⟩
    · trivial
    · show (w.st.flatland.groups.set ag.2 none)[ag.2]? = some none
      simp [List.getElem?_set, hlt]
    · have hltl : ag.1 < (Flatland.delete_flatland_group w.st.flatland ag.2).alphabets.length :=
        refcountAt_pos_lt_length _ _ hpos
      rw [refcountAt_dec_self _ _ hltl]
      have hdel : Flatland.refcountAt (Flatland.delete_flatland_group w.st.flatland ag.2) ag.1
          = Flatland.refcountAt w.st.flatland ag.1 := rfl
      rw [hdel]
      omega
    · trivial

/-- Witness for C5: on the reachable state with one live group whose
alphabet has refcount 2, the clone action increments the refcount of
slot 0, and dropping the group frees group slot 0, marks the
draw-command channel dirty, and decrements the refcount by exactly 1. -/
theorem group_lifecycle_refcount_witness :
    Flatland.refcountAt (Flatland.inc_alphabet wOneGroup.st.flatland 0) 0
      = Flatland.refcountAt wOneGroup.st.flatland 0 + 1 ∧
    (World.applyOp wOneGroup (Op.dropGroup 0)).st.flatland.draw_invalidated = true ∧
    (World.applyOp wOneGroup (Op.dropGroup 0)).st.flatland.groups[0]? = some none ∧
    Flatland.refcountAt (World.applyOp wOneGroup (Op.dropGroup 0)).st.flatland 0 + 1
      = Flatland.refcountAt wOneGroup.st.flatland 0 := by
  have h := group_lifecycle_refcount wOneGroup 0 0 ⟨0⟩ ⟨0, 0, 0, 0⟩ [] (0, 0)
  exact ⟨h.1 wOneGroup.st.flatland 0 (by decide),
         (h.2.2 (by decide)).1,
         (h.2.2 (by decide)).2.1 (by decide),
         (h.2.2 (by decide)).2.2.1 (by decide)⟩
